import Mathlib

/-!
Verification development for the multi-agent transaction backend
(`src/scripts/repro-rust-backend/src/main.rs`).

The backend stores hex-encoded transaction bytes in an in-memory map,
optionally attaches a secondary signature, and on retrieval either returns
the stored hex unchanged (pass-through) or routes it through an external
structured codec round trip (reserialize), falling back to the original
bytes when the round trip fails.

Modelling choices:
- Bytes are `Nat` values below 256, byte buffers are `List Nat`.
- The `HashMap<String, StoredTransaction>` is modelled as the map
  `String → Option StoredTransaction`; `insert` is pointwise update.
- The external structured codec (`aptos_bcs::from_bytes` /
  `aptos_bcs::to_bytes` on `MultiAgentRawTransaction`) is an external
  dependency, treated as an opaque pair of fallible functions `dec` / `enc`
  over which all statements are universally quantified.
- The `hex` crate: `hex::decode` accepts the digits `0-9`, `a-f`, `A-F`,
  fails on any other character or an odd digit count; `hex::encode`
  produces lowercase digits. Embedded below as `hexDecode` / `hexEncode`.
- Timestamps (`SystemTime::now`) are passed in as an explicit `now : Nat`.
- The `println!` diagnostics of the retrieval path are returned as an
  explicit `List String` alongside the response.
-/

/-- Value of one hex digit character, as accepted by `hex::decode`:
`0-9`, `a-f` and `A-F`; any other character is rejected. -/
def hexDigitVal (c : Char) : Option Nat :=
  if '0' ≤ c ∧ c ≤ '9' then some (c.toNat - '0'.toNat)
  else if 'a' ≤ c ∧ c ≤ 'f' then some (c.toNat - 'a'.toNat + 10)
  else if 'A' ≤ c ∧ c ≤ 'F' then some (c.toNat - 'A'.toNat + 10)
  else none

/-- Embedding of `hex::decode` on a character list: consumes digits two at a
time, fails on an odd count or an invalid digit. -/
def hexDecodeList : List Char → Option (List Nat)
  | [] => some []
  | [_] => none
  | hi :: lo :: rest => do
      let h ← hexDigitVal hi
      let l ← hexDigitVal lo
      let tail ← hexDecodeList rest
      pure ((h * 16 + l) :: tail)

/-- String form of `hex::decode`. -/
def hexDecode (s : String) : Option (List Nat) :=
  hexDecodeList s.data

/-- Lowercase hex digit character for a value below 16 (`hex::encode`). -/
def hexDigitChar (n : Nat) : Char :=
  if n < 10 then Char.ofNat ('0'.toNat + n) else Char.ofNat ('a'.toNat + n - 10)

/-- Embedding of `hex::encode` on a byte list: two lowercase digits per
byte. -/
def hexEncodeList : List Nat → List Char
  | [] => []
  | b :: bs => hexDigitChar (b / 16) :: hexDigitChar (b % 16) :: hexEncodeList bs

/-- String form of `hex::encode`. -/
def hexEncode (bytes : List Nat) : String :=
  ⟨hexEncodeList bytes⟩

/-- Rust `bcs_hex.starts_with("0x")` (lowercase marker, as in the source). -/
def starts0x (s : String) : Bool :=
  match s.data with
  | '0' :: 'x' :: _ => true
  | _ => false

/-- Test for the uppercase `0X` marker; the source never performs it, it is
used only to state claims about the uppercase marker. -/
def starts0X (s : String) : Bool :=
  match s.data with
  | '0' :: 'X' :: _ => true
  | _ => false

/-- The remainder of a string after its first two characters
(the `strip_prefix("0x")` result when the marker is present). -/
def strDrop2 (s : String) : String :=
  ⟨s.data.drop 2⟩

/-- The shared idiom of `try_reserialize` (main.rs lines 255-259) and
`parse_sequence_number` (lines 296-299): drop a leading lowercase `0x`
marker if present, then `hex::decode` the remainder. -/
def decodeWithMarker (s : String) : Option (List Nat) :=
  hexDecode (if starts0x s then strDrop2 s else s)

/-- Embedding of `u64::from_le_bytes`: little-endian value of a byte
list. -/
def u64FromLe : List Nat → Nat
  | [] => 0
  | b :: bs => b + 256 * u64FromLe bs

/-- The fixed-offset field read of `parse_sequence_number`
(main.rs lines 311-317): absent when the buffer is shorter than 40 bytes,
otherwise the little-endian `u64` over bytes 32..40. -/
def readSeqFromBytes (bytes : List Nat) : Option Nat :=
  if bytes.length < 40 then none
  else some (u64FromLe ((bytes.drop 32).take 8))

/-- Embedding of `parse_sequence_number` (main.rs lines 294-318): strip the
marker, hex-decode (failure gives `None`), then the fixed-offset read. -/
def parse_sequence_number (bcs_hex : String) : Option Nat :=
  (decodeWithMarker bcs_hex).bind readSeqFromBytes

/-- The `StoredTransaction` record (main.rs lines 43-53). -/
structure StoredTransaction where
  raw_bcs_hex : String
  sequence_number : Option Nat
  secondary_signature_hex : Option String
  stored_at : Nat
deriving DecidableEq, Repr

/-- Embedding of `StoreTransactionResponse` (main.rs lines 61-67). -/
structure StoreTransactionResponse where
  success : Bool
  transaction_id : String
  sequence_number : Option Nat
  message : String
deriving DecidableEq, Repr

/-- Embedding of `StoreSignatureResponse` (main.rs lines 75-80). -/
structure StoreSignatureResponse where
  success : Bool
  transaction_id : String
  message : String
deriving DecidableEq, Repr

/-- Embedding of `GetTransactionResponse` (main.rs lines 82-90). -/
structure GetTransactionResponse where
  success : Bool
  bcs_hex : Option String
  secondary_signature_hex : Option String
  sequence_number : Option Nat
  stored_at : Option Nat
  message : String
deriving DecidableEq, Repr

/-- The `HashMap<String, StoredTransaction>` of `AppState`, as the map from
keys to optional records. -/
def Store : Type :=
  String → Option StoredTransaction

/-- Embedding of `HashMap::insert`: pointwise update, replacing any record
under the key. -/
def Store.insert (store : Store) (id : String) (tx : StoredTransaction) : Store :=
  fun k => if k = id then some tx else store k

/-- The empty store the process starts with. -/
def Store.empty : Store := fun _ => none

/-- Byte length of one character in UTF-8 (the Rust `char::len_utf8`). -/
def charUtf8Size (c : Char) : Nat :=
  if c.toNat < 128 then 1
  else if c.toNat < 2048 then 2
  else if c.toNat < 65536 then 3
  else 4

/-- UTF-8 byte length of a character list (the Rust `str::len`). -/
def utf8Len : List Char → Nat
  | [] => 0
  | c :: cs => charUtf8Size c + utf8Len cs

/-- The Rust `str::is_char_boundary`: a byte index is a boundary exactly
when it is the total byte length of some leading run of characters. -/
def isCharBoundary : List Char → Nat → Bool
  | _, 0 => true
  | [], _ + 1 => false
  | c :: cs, i + 1 =>
      if charUtf8Size c ≤ i + 1 then isCharBoundary cs (i + 1 - charUtf8Size c) else false

/-- The debug printlns at main.rs lines 99 and 142 byte-slice the request
string as `&s[..min(60, s.len())]`; the slice panics exactly when that cut
index is not a character boundary (possible only for a non-ASCII string
longer than 60 bytes). -/
def debugSlicePanics (s : String) : Bool :=
  !(isCharBoundary s.data (min 60 (utf8Len s.data)))

/-- A panic-triggering payload: one one-byte character followed by thirty
three-byte characters, 91 bytes in total with character boundaries at
1 + 3k, so the cut at byte 60 falls inside a character. -/
def badHex : String := "a€€€€€€€€€€€€€€€€€€€€€€€€€€€€€€"

/-- Embedding of `store_transaction` (main.rs lines 93-131). The debug
println at line 99 byte-slices `bcs_hex` at `min(60, len)` before anything
else; when that index is not a character boundary the handler panics and no
record is inserted, modelled as `none`. Otherwise: extract the sequence
number best-effort, insert the record with the current timestamp, answer
success. -/
def store_transaction (store : Store) (transaction_id bcs_hex : String) (now : Nat) :
    Option (Store × StoreTransactionResponse) :=
  if debugSlicePanics bcs_hex then none
  else
    let sequence_number := parse_sequence_number bcs_hex
    let stored : StoredTransaction :=
      { raw_bcs_hex := bcs_hex
        sequence_number := sequence_number
        secondary_signature_hex := none
        stored_at := now }
    some (store.insert transaction_id stored,
      { success := true
        transaction_id := transaction_id
        sequence_number := sequence_number
        message := "Transaction stored" })

/-- Embedding of `store_signature` (main.rs lines 134-169). The debug
println at line 142 byte-slices `signature_hex` before the map is touched;
an off-boundary cut panics, modelled as `none`. Otherwise: on a present
record, set its `secondary_signature_hex` in place; else answer
not-found. -/
def store_signature (store : Store) (transaction_id signature_hex : String) :
    Option (Store × StoreSignatureResponse) :=
  if debugSlicePanics signature_hex then none
  else some (match store transaction_id with
    | some tx =>
        (store.insert transaction_id { tx with secondary_signature_hex := some signature_hex },
         { success := true
           transaction_id := transaction_id
           message := "Signature stored" })
    | none =>
        (store,
         { success := false
           transaction_id := transaction_id
           message := "Transaction not found" }))

/-- Embedding of `try_reserialize` (main.rs lines 253-285), parameterised by
the external structured codec: `dec` is
`aptos_bcs::from_bytes::<MultiAgentRawTransaction>`, `enc` is
`aptos_bcs::to_bytes`. Strips a lowercase `0x` marker, hex-decodes, runs
decode then encode, and re-encodes to hex restoring the marker. -/
def tryReserialize {α : Type} (dec : List Nat → Except String α)
    (enc : α → Except String (List Nat)) (bcs_hex : String) : Except String String :=
  match decodeWithMarker bcs_hex with
  | none => .error "hex decode error"
  | some bytes =>
      match dec bytes with
      | .error e => .error ("BCS deserialize error: " ++ e)
      | .ok multi_agent =>
          match enc multi_agent with
          | .error e => .error ("BCS serialize error: " ++ e)
          | .ok reserialized_bytes =>
              .ok (if starts0x bcs_hex then ⟨'0' :: 'x' :: (hexEncode reserialized_bytes).data⟩
                   else hexEncode reserialized_bytes)

/-- The retrieval policy of `get_transaction` (main.rs lines 196-223): in
reserialize mode run `try_reserialize`, keep its output on success and fall
back to the stored hex on failure; in pass-through mode return the stored hex.
The second component collects the diagnostics printed on each branch. -/
def resolve_bcs {α : Type} (reserialize_mode : Bool) (dec : List Nat → Except String α)
    (enc : α → Except String (List Nat)) (raw : String) : String × List String :=
  if reserialize_mode then
    match tryReserialize dec enc raw with
    | .ok reserialized =>
        (reserialized,
         (if raw.length ≠ reserialized.length
          then ["WARNING: BCS length changed after re-serialization!"] else []) ++
         (if raw ≠ reserialized
          then ["WARNING: BCS content changed after re-serialization!"]
          else ["BCS unchanged after re-serialization (good!)"]))
    | .error e =>
        (raw, ["ERROR: Failed to re-serialize: " ++ e, "Falling back to original BCS"])
  else (raw, [])

/-- Embedding of `get_transaction` (main.rs lines 172-250): look up the
record, apply the retrieval policy to its bytes, and answer with the record
fields; not-found answers carry no payload fields. Returns the response and
the diagnostics of the retrieval policy. -/
def get_transaction {α : Type} (reserialize_mode : Bool) (dec : List Nat → Except String α)
    (enc : α → Except String (List Nat)) (store : Store) (transaction_id : String)
    (now : Nat) : GetTransactionResponse × List String :=
  match store transaction_id with
  | some tx =>
      let elapsed := now - tx.stored_at
      let r := resolve_bcs reserialize_mode dec enc tx.raw_bcs_hex
      ({ success := true
         bcs_hex := some r.1
         secondary_signature_hex := tx.secondary_signature_hex
         sequence_number := tx.sequence_number
         stored_at := some tx.stored_at
         message := "Transaction retrieved (stored " ++ toString elapsed ++ " seconds ago)" },
       r.2)
  | none =>
      ({ success := false
         bcs_hex := none
         secondary_signature_hex := none
         sequence_number := none
         stored_at := none
         message := "Transaction not found" },
       [])

/-- A two-record store used to instantiate the signature claims. -/
def demoStore : Store :=
  fun k =>
    if k = "tx1" then
      some { raw_bcs_hex := "ab", sequence_number := none,
             secondary_signature_hex := none, stored_at := 5 }
    else if k = "tx2" then
      some { raw_bcs_hex := "cd", sequence_number := none,
             secondary_signature_hex := none, stored_at := 6 }
    else none

/-- A codec whose decode always fails, instantiating the reserialize
fallback claim. -/
def failingDec : List Nat → Except String Unit :=
  fun _ => .error "unexpected end of input"

/-- A codec encode used only to instantiate statements. -/
def trivialEnc : Unit → Except String (List Nat) :=
  fun _ => .ok []

/-- A structured codec decode that always succeeds, instantiating the marker
claim. -/
def constDec : List Nat → Except String Unit :=
  fun _ => .ok ()

/-- The value the spec prescribes for the fixed-offset field: the unsigned
little-endian 64-bit integer over bytes 32..40 of the buffer. -/
def specLeFieldAt32 (bytes : List Nat) : Nat :=
  ∑ i ∈ Finset.range 8, bytes.getD (32 + i) 0 * 256 ^ i

/-- Lowercasing of the six uppercase hex digit letters; all other characters
are untouched. -/
def hexCharLower : Char → Char
  | 'A' => 'a'
  | 'B' => 'b'
  | 'C' => 'c'
  | 'D' => 'd'
  | 'E' => 'e'
  | 'F' => 'f'
  | c => c

/-- Modelled from the spec (§4.1 Hex Codec): the decode contract as the spec
words it — strip an optional leading `0x` or `0X` marker, then hex-decode.
Present only to compare the spec wording against the implementation, which
strips the lowercase marker alone. -/
def specDecodeWithMarker (s : String) : Option (List Nat) :=
  hexDecode (if starts0x s || starts0X s then strDrop2 s else s)

lemma hexDecodeList_isSome : ∀ l : List Char,
    (hexDecodeList l).isSome = true ↔
      (l.length % 2 = 0 ∧ ∀ c ∈ l, (hexDigitVal c).isSome = true)
  | [] => by simp [hexDecodeList]
  | [c] => by simp [hexDecodeList]
  | hi :: lo :: rest => by
      have ih := hexDecodeList_isSome rest
      constructor
      · intro hsome
        rw [hexDecodeList] at hsome
        cases hhi : hexDigitVal hi <;> rw [hhi] at hsome
        · simp at hsome
        cases hlo : hexDigitVal lo <;> rw [hlo] at hsome
        · simp at hsome
        cases hrest : hexDecodeList rest <;> rw [hrest] at hsome
        · simp at hsome
        obtain ⟨hm, hall⟩ := ih.mp (by rw [hrest]; rfl)
        refine ⟨by simp only [List.length_cons]; omega, ?_⟩
        intro c hc
        rcases List.mem_cons.mp hc with rfl | hc
        · rw [hhi]; rfl
        rcases List.mem_cons.mp hc with rfl | hc
        · rw [hlo]; rfl
        · exact hall c hc
      · rintro ⟨hm, hall⟩
        have hhi := hall hi (by simp)
        have hlo := hall lo (by simp)
        have hrest : (hexDecodeList rest).isSome = true := by
          refine ih.mpr ⟨?_, fun c hc => hall c (by simp [hc])⟩
          simp only [List.length_cons] at hm
          omega
        rw [hexDecodeList]
        obtain ⟨h, hh⟩ := Option.isSome_iff_exists.mp hhi
        obtain ⟨l2, hl⟩ := Option.isSome_iff_exists.mp hlo
        obtain ⟨t, ht⟩ := Option.isSome_iff_exists.mp hrest
        rw [hh, hl, ht]
        rfl

/-- Every accepted hex digit character is a one-byte character. -/
lemma charUtf8Size_of_hexDigit {c : Char} (h : (hexDigitVal c).isSome = true) :
    charUtf8Size c = 1 := by
  rw [hexDigitVal] at h
  split_ifs at h with h1 h2 h3
  · have hb : c.toNat ≤ 57 := h1.2
    rw [charUtf8Size, if_pos (by omega)]
  · have hb : c.toNat ≤ 102 := h2.2
    rw [charUtf8Size, if_pos (by omega)]
  · have hb : c.toNat ≤ 70 := h3.2
    rw [charUtf8Size, if_pos (by omega)]
  · simp at h

lemma utf8Len_all_one : ∀ {l : List Char}, (∀ c ∈ l, charUtf8Size c = 1) →
    utf8Len l = l.length
  | [], _ => rfl
  | c :: cs, h => by
      rw [utf8Len, h c (List.mem_cons_self c cs),
        utf8Len_all_one (fun x hx => h x (List.mem_cons_of_mem c hx)), List.length_cons]
      omega

lemma isCharBoundary_all_one : ∀ (l : List Char), (∀ c ∈ l, charUtf8Size c = 1) →
    ∀ i, i ≤ l.length → isCharBoundary l i = true
  | l, _, 0, _ => by cases l <;> rfl
  | [], _, i + 1, hle => by simp at hle
  | c :: cs, h, i + 1, hle => by
      have hc : charUtf8Size c = 1 := h c (List.mem_cons_self c cs)
      have ih := isCharBoundary_all_one cs (fun x hx => h x (List.mem_cons_of_mem c hx)) i
        (by simp only [List.length_cons] at hle; omega)
      simp only [isCharBoundary, hc, Nat.add_sub_cancel]
      rw [if_pos (by omega)]
      exact ih

/-- A string of one-byte characters never triggers the debug-print slice
panic: every cut index up to its length is a character boundary. -/
lemma ascii_no_panic {s : String} (h : ∀ c ∈ s.data, charUtf8Size c = 1) :
    debugSlicePanics s = false := by
  have hb : isCharBoundary s.data (min 60 (utf8Len s.data)) = true := by
    apply isCharBoundary_all_one s.data h
    rw [utf8Len_all_one h]
    exact min_le_right _ _
  rw [debugSlicePanics, hb]
  rfl

lemma starts0x_true_iff (s : String) :
    starts0x s = true ↔ ∃ rest, s.data = '0' :: 'x' :: rest := by
  constructor
  · intro h
    unfold starts0x at h
    split at h
    · next rest heq => exact ⟨rest, heq⟩
    · exact absurd h (by simp)
  · rintro ⟨rest, hr⟩
    unfold starts0x
    rw [hr]
    rfl

/-- Hex text that decodes is ASCII (a lowercase marker plus hex digits), so
the debug-print slice of the store handler cannot panic on it. -/
lemma decodable_no_panic (s : String) (bytes : List Nat)
    (h : decodeWithMarker s = some bytes) : debugSlicePanics s = false := by
  apply ascii_no_panic
  rw [decodeWithMarker] at h
  by_cases hs : starts0x s = true
  · rw [if_pos hs] at h
    obtain ⟨rest, hr⟩ := (starts0x_true_iff s).mp hs
    have hdrop : (strDrop2 s).data = rest := by simp [strDrop2, hr]
    have hall : ∀ c ∈ rest, (hexDigitVal c).isSome = true := by
      refine ((hexDecodeList_isSome rest).mp ?_).2
      rw [hexDecode, hdrop] at h
      rw [h]
      rfl
    intro c hc
    rw [hr] at hc
    rcases List.mem_cons.mp hc with rfl | hc
    · decide
    rcases List.mem_cons.mp hc with rfl | hc
    · decide
    · exact charUtf8Size_of_hexDigit (hall c hc)
  · rw [if_neg hs] at h
    have hall : ∀ c ∈ s.data, (hexDigitVal c).isSome = true := by
      refine ((hexDecodeList_isSome s.data).mp ?_).2
      rw [hexDecode] at h
      rw [h]
      rfl
    intro c hc
    exact charUtf8Size_of_hexDigit (hall c hc)

/-- C3: for every payload on which the debug print at line 99 does not panic
(the cut at byte `min(60, len)` is a character boundary — all others abort
the handler, see the C6 finding), storing and then retrieving in
pass-through mode reports success and returns hex text byte-identical to the
stored payload. -/
theorem store_then_get_passthrough {α : Type} (dec : List Nat → Except String α)
    (enc : α → Except String (List Nat)) (store : Store) (id hex : String) (t now : Nat)
    (hnp : debugSlicePanics hex = false) :
    ∃ s1, store_transaction store id hex t = some s1 ∧
      (get_transaction false dec enc s1.1 id now).1.success = true ∧
      (get_transaction false dec enc s1.1 id now).1.bcs_hex = some hex := by
  refine ⟨(store.insert id
      { raw_bcs_hex := hex, sequence_number := parse_sequence_number hex,
        secondary_signature_hex := none, stored_at := t },
      { success := true, transaction_id := id,
        sequence_number := parse_sequence_number hex, message := "Transaction stored" }),
    ?_, ?_, ?_⟩
  · rw [store_transaction, if_neg (by simp [hnp])]
  · simp [get_transaction, Store.insert, resolve_bcs]
  · simp [get_transaction, Store.insert, resolve_bcs]

/-- Closed instance of `store_then_get_passthrough` at the payload `"ab"`. -/
theorem store_then_get_passthrough_witness :
    ∃ s1, store_transaction Store.empty "t1" "ab" 0 = some s1 ∧
      (get_transaction false constDec trivialEnc s1.1 "t1" 3).1.success = true ∧
      (get_transaction false constDec trivialEnc s1.1 "t1" 3).1.bcs_hex = some "ab" :=
  store_then_get_passthrough constDec trivialEnc Store.empty "t1" "ab" 0 3 (by decide)

/-- C6 finding (code bug): on `badHex` the store handler panics at main.rs
line 99 — the byte-slice cut at 60 falls inside a character — before the
record is inserted, so the store raises a hard failure and stores nothing,
against the claimed never-failing storage. -/
theorem store_transaction_panics_on_failing_input :
    store_transaction Store.empty "t1" badHex 0 = none := by
  rw [store_transaction, if_pos (show debugSlicePanics badHex = true by decide)]

/-- C7: for panic-free inputs (see the C6 finding), re-storing under an
identifier that already has a record — here one that even had a signature
attached — replaces the record entirely: the new record has no signature,
and every other key is untouched, so at most one record per identifier ever
exists in the map. -/
theorem store_overwrite_discards_signature (store : Store) (id hex1 sig hex2 : String)
    (t1 t2 : Nat) (h1 : debugSlicePanics hex1 = false)
    (h2 : debugSlicePanics sig = false) (h3 : debugSlicePanics hex2 = false) :
    ∃ s1 s2 s3,
      store_transaction store id hex1 t1 = some s1 ∧
      store_signature s1.1 id sig = some s2 ∧
      store_transaction s2.1 id hex2 t2 = some s3 ∧
      ∀ k, s3.1 k =
        if k = id
        then some { raw_bcs_hex := hex2, sequence_number := parse_sequence_number hex2,
                    secondary_signature_hex := none, stored_at := t2 }
        else store k := by
  refine ⟨(store.insert id
      { raw_bcs_hex := hex1, sequence_number := parse_sequence_number hex1,
        secondary_signature_hex := none, stored_at := t1 },
      { success := true, transaction_id := id,
        sequence_number := parse_sequence_number hex1, message := "Transaction stored" }),
    ((store.insert id
      { raw_bcs_hex := hex1, sequence_number := parse_sequence_number hex1,
        secondary_signature_hex := none, stored_at := t1 }).insert id
      { raw_bcs_hex := hex1, sequence_number := parse_sequence_number hex1,
        secondary_signature_hex := some sig, stored_at := t1 },
      { success := true, transaction_id := id, message := "Signature stored" }),
    (((store.insert id
      { raw_bcs_hex := hex1, sequence_number := parse_sequence_number hex1,
        secondary_signature_hex := none, stored_at := t1 }).insert id
      { raw_bcs_hex := hex1, sequence_number := parse_sequence_number hex1,
        secondary_signature_hex := some sig, stored_at := t1 }).insert id
      { raw_bcs_hex := hex2, sequence_number := parse_sequence_number hex2,
        secondary_signature_hex := none, stored_at := t2 },
      { success := true, transaction_id := id,
        sequence_number := parse_sequence_number hex2, message := "Transaction stored" }),
    ?_, ?_, ?_, ?_⟩
  · rw [store_transaction, if_neg (by simp [h1])]
  · rw [store_signature, if_neg (by simp [h2])]
    simp [Store.insert]
  · rw [store_transaction, if_neg (by simp [h3])]
  · intro k
    by_cases hk : k = id <;> simp [Store.insert, hk]

/-- Closed instance of `store_overwrite_discards_signature`: store, attach a
signature, overwrite, and observe the fresh signatureless record. -/
theorem store_overwrite_discards_signature_witness :
    ∃ s1 s2 s3,
      store_transaction Store.empty "t1" "ab" 1 = some s1 ∧
      store_signature s1.1 "t1" "99" = some s2 ∧
      store_transaction s2.1 "t1" "cd" 2 = some s3 ∧
      s3.1 "t1" = some { raw_bcs_hex := "cd", sequence_number := parse_sequence_number "cd",
                         secondary_signature_hex := none, stored_at := 2 } := by
  obtain ⟨s1, s2, s3, e1, e2, e3, hf⟩ :=
    store_overwrite_discards_signature Store.empty "t1" "ab" "99" "cd" 1 2
      (by decide) (by decide) (by decide)
  exact ⟨s1, s2, s3, e1, e2, e3, (hf "t1").trans (if_pos rfl)⟩

/-- C10: for a panic-free signature payload, attaching a signature to an
existing record updates only the `secondary_signature_hex` field of that
record — its other fields and every record under any other identifier are
unchanged. -/
theorem attach_signature_frame (store : Store) (id sig : String) (tx : StoredTransaction)
    (h : store id = some tx) (hp : debugSlicePanics sig = false) :
    ∃ r, store_signature store id sig = some r ∧
      r.1 id = some { raw_bcs_hex := tx.raw_bcs_hex, sequence_number := tx.sequence_number,
                      secondary_signature_hex := some sig, stored_at := tx.stored_at } ∧
      ∀ k, k ≠ id → r.1 k = store k := by
  refine ⟨(store.insert id { tx with secondary_signature_hex := some sig },
           { success := true, transaction_id := id, message := "Signature stored" }),
    ?_, ?_, ?_⟩
  · rw [store_signature, if_neg (by simp [hp]), h]
  · simp [Store.insert]
  · intro k hk
    simp [Store.insert, hk]

/-- Closed instance of `attach_signature_frame` on the concrete two-record
store. -/
theorem attach_signature_frame_witness :
    ∃ r, store_signature demoStore "tx1" "99" = some r ∧
      r.1 "tx1" = some { raw_bcs_hex := "ab", sequence_number := none,
                         secondary_signature_hex := some "99", stored_at := 5 } ∧
      r.1 "tx2" = demoStore "tx2" := by
  obtain ⟨r, hr, hid, hframe⟩ := attach_signature_frame demoStore "tx1" "99"
    { raw_bcs_hex := "ab", sequence_number := none,
      secondary_signature_hex := none, stored_at := 5 } (by decide) (by decide)
  exact ⟨r, hr, hid, hframe "tx2" (by decide)⟩

/-- C8: for panic-free signature payloads, attaching a signature fails with
the not-found outcome exactly when no record exists under the identifier;
otherwise it succeeds and sets the signature field, and a repeated call with
a different value overwrites the prior signature. -/
theorem attach_signature_spec (store : Store) (id sig sig2 : String)
    (hp : debugSlicePanics sig = false) (hp2 : debugSlicePanics sig2 = false) :
    ∃ r, store_signature store id sig = some r ∧
      (r.2.success = false ↔ store id = none) ∧
      (store id = none → r.2.message = "Transaction not found" ∧ r.1 = store) ∧
      (∀ tx, store id = some tx →
        r.1 id = some { tx with secondary_signature_hex := some sig } ∧
        r.2.success = true ∧
        ∃ r2, store_signature r.1 id sig2 = some r2 ∧
          r2.1 id = some { tx with secondary_signature_hex := some sig2 }) := by
  rcases hstore : store id with _ | tx
  · refine ⟨(store,
        { success := false, transaction_id := id, message := "Transaction not found" }),
      ?_, by simp, fun _ => ⟨rfl, rfl⟩, fun tx htx => absurd htx (by simp)⟩
    rw [store_signature, if_neg (by simp [hp]), hstore]
  · refine ⟨(store.insert id { tx with secondary_signature_hex := some sig },
        { success := true, transaction_id := id, message := "Signature stored" }),
      ?_, by simp, fun hnone => absurd hnone (by simp), fun tx2 htx2 => ?_⟩
    · rw [store_signature, if_neg (by simp [hp]), hstore]
    · obtain rfl : tx = tx2 := by injection htx2
      refine ⟨by simp [Store.insert], rfl, ?_⟩
      refine ⟨((store.insert id { tx with secondary_signature_hex := some sig }).insert id
            { tx with secondary_signature_hex := some sig2 },
          { success := true, transaction_id := id, message := "Signature stored" }), ?_, ?_⟩
      · rw [store_signature, if_neg (by simp [hp2])]
        simp [Store.insert]
      · simp [Store.insert]

/-- Closed instance of `attach_signature_spec`: not-found on an absent key,
and success with the field set on a present key. -/
theorem attach_signature_spec_witness :
    (∃ r, store_signature demoStore "missing" "sg" = some r ∧ r.2.success = false) ∧
    (∃ r, store_signature demoStore "tx1" "99" = some r ∧ r.2.success = true ∧
      r.1 "tx1" = some { raw_bcs_hex := "ab", sequence_number := none,
                         secondary_signature_hex := some "99", stored_at := 5 }) := by
  constructor
  · obtain ⟨r, hr, hiff, _, _⟩ :=
      attach_signature_spec demoStore "missing" "sg" "77" (by decide) (by decide)
    exact ⟨r, hr, hiff.mpr (by decide)⟩
  · obtain ⟨r, hr, _, _, hsome⟩ :=
      attach_signature_spec demoStore "tx1" "99" "77" (by decide) (by decide)
    obtain ⟨hid, hsucc, _⟩ := hsome
      { raw_bcs_hex := "ab", sequence_number := none,
        secondary_signature_hex := none, stored_at := 5 } (by decide)
    exact ⟨r, hr, hsucc, hid⟩

/-- C5: a record created by store-transaction from decodable hex (on which
the handler provably cannot panic, decodable hex being ASCII) has an absent
sequence number exactly when the decoded payload is shorter than the 40
bytes needed to contain the fixed-offset field. -/
theorem sequence_number_none_iff_short (store : Store) (id hex : String) (now : Nat)
    (bytes : List Nat) (hdec : decodeWithMarker hex = some bytes) :
    ∃ r, store_transaction store id hex now = some r ∧
      ∃ rec, r.1 id = some rec ∧ (rec.sequence_number = none ↔ bytes.length < 40) := by
  have hnp := decodable_no_panic hex bytes hdec
  refine ⟨(store.insert id
      { raw_bcs_hex := hex, sequence_number := parse_sequence_number hex,
        secondary_signature_hex := none, stored_at := now },
      { success := true, transaction_id := id,
        sequence_number := parse_sequence_number hex, message := "Transaction stored" }),
    ?_, ?_⟩
  · rw [store_transaction, if_neg (by simp [hnp])]
  · refine ⟨{ raw_bcs_hex := hex, sequence_number := parse_sequence_number hex,
              secondary_signature_hex := none, stored_at := now },
      by simp [Store.insert], ?_⟩
    show parse_sequence_number hex = none ↔ bytes.length < 40
    rw [parse_sequence_number, hdec]
    by_cases hlen : bytes.length < 40 <;> simp [readSeqFromBytes, hlen]

/-- Closed instance of `sequence_number_none_iff_short`: a one-byte payload
is stored with an absent sequence number. -/
theorem sequence_number_none_iff_short_witness :
    ∃ r, store_transaction Store.empty "t1" "ab" 0 = some r ∧
      ∃ rec, r.1 "t1" = some rec ∧
        (rec.sequence_number = none ↔ ([171] : List Nat).length < 40) :=
  sequence_number_none_iff_short Store.empty "t1" "ab" 0 [171] (by decide)

/-- C1: in reserialize mode, when the decode step of the round trip fails on
the stored bytes — the hex decode fails or the structured decode fails — the
get operation returns exactly the originally stored hex, still reports
success, and records the failure in the diagnostics. -/
theorem reserialize_decode_failure_fallback {α : Type} (dec : List Nat → Except String α)
    (enc : α → Except String (List Nat)) (store : Store) (id : String)
    (tx : StoredTransaction) (now : Nat)
    (hfound : store id = some tx)
    (hfail : decodeWithMarker tx.raw_bcs_hex = none ∨
      ∃ bytes e, decodeWithMarker tx.raw_bcs_hex = some bytes ∧ dec bytes = .error e) :
    ∃ e, tryReserialize dec enc tx.raw_bcs_hex = .error e ∧
      (get_transaction true dec enc store id now).1.success = true ∧
      (get_transaction true dec enc store id now).1.bcs_hex = some tx.raw_bcs_hex ∧
      ("ERROR: Failed to re-serialize: " ++ e) ∈ (get_transaction true dec enc store id now).2 := by
  have herr : ∃ e, tryReserialize dec enc tx.raw_bcs_hex = .error e := by
    rcases hfail with hnone | ⟨bytes, e, hsome, hdec⟩
    · exact ⟨"hex decode error", by rw [tryReserialize, hnone]⟩
    · exact ⟨"BCS deserialize error: " ++ e, by rw [tryReserialize, hsome]; simp [hdec]⟩
  obtain ⟨e, he⟩ := herr
  refine ⟨e, he, ?_, ?_, ?_⟩ <;>
    simp [get_transaction, hfound, resolve_bcs, he]

/-- Closed instance of `reserialize_decode_failure_fallback` on the demo
store with an always-failing structured decode. -/
theorem reserialize_decode_failure_fallback_witness :
    ∃ e, tryReserialize failingDec trivialEnc "ab" = .error e ∧
      (get_transaction true failingDec trivialEnc demoStore "tx1" 9).1.success = true ∧
      (get_transaction true failingDec trivialEnc demoStore "tx1" 9).1.bcs_hex = some "ab" ∧
      ("ERROR: Failed to re-serialize: " ++ e) ∈
        (get_transaction true failingDec trivialEnc demoStore "tx1" 9).2 :=
  reserialize_decode_failure_fallback failingDec trivialEnc demoStore "tx1"
    { raw_bcs_hex := "ab", sequence_number := none,
      secondary_signature_hex := none, stored_at := 5 } 9 (by decide)
    (Or.inr ⟨[171], "unexpected end of input", by decide, rfl⟩)

lemma hexDigitChar_ne_x {n : Nat} (h : n < 16) : hexDigitChar n ≠ 'x' := by
  interval_cases n <;> decide

/-- The lowercase hex encoding of a byte list never begins with the two
characters `0x`: its second character is a hex digit, and `x` is not one. -/
lemma hexEncode_not_starts0x (bytes : List Nat) : starts0x (hexEncode bytes) = false := by
  cases bytes with
  | nil => rfl
  | cons b bs =>
      show starts0x ⟨hexDigitChar (b / 16) :: hexDigitChar (b % 16) :: hexEncodeList bs⟩ = false
      unfold starts0x
      split
      · next heq =>
          injection heq with h1 h2
          injection h2 with h2 _
          exact absurd h2 (hexDigitChar_ne_x (Nat.mod_lt _ (by norm_num)))
      · rfl

lemma starts0X_true_iff (s : String) :
    starts0X s = true ↔ ∃ rest, s.data = '0' :: 'X' :: rest := by
  constructor
  · intro h
    unfold starts0X at h
    split at h
    · next rest heq => exact ⟨rest, heq⟩
    · exact absurd h (by simp)
  · rintro ⟨rest, hr⟩
    unfold starts0X
    rw [hr]
    rfl

lemma hexDecodeList_cons_0X (rest : List Char) :
    hexDecodeList ('0' :: 'X' :: rest) = none := by
  have hX : hexDigitVal 'X' = none := by decide
  simp [hexDecodeList, hX]

/-- C9: in reserialize mode, when the round trip succeeds, the returned hex
begins with the `0x` marker exactly when the stored hex began with a marker
(a lowercase `0x`, or an uppercase `0X` — under which the round trip can in
fact never succeed, since the unstripped `X` fails hex decoding). -/
theorem reserialize_marker_round_trip {α : Type} (dec : List Nat → Except String α)
    (enc : α → Except String (List Nat)) (stored out : String)
    (h : tryReserialize dec enc stored = .ok out) :
    starts0x out = true ↔ (starts0x stored = true ∨ starts0X stored = true) := by
  rw [tryReserialize] at h
  split at h
  · exact absurd h (by simp)
  rename_i bytes hdec
  split at h
  · exact absurd h (by simp)
  rename_i a hd
  split at h
  · exact absurd h (by simp)
  rename_i rb he
  replace h : (if starts0x stored = true
      then (⟨'0' :: 'x' :: (hexEncode rb).data⟩ : String) else hexEncode rb) = out := by
    injection h
  by_cases hs : starts0x stored = true
  · rw [if_pos hs] at h
    have hmk : starts0x (⟨'0' :: 'x' :: (hexEncode rb).data⟩ : String) = true := rfl
    rw [← h, hmk]
    simp [hs]
  · rw [if_neg hs] at h
    have hsf : starts0x stored = false := by
      revert hs; cases starts0x stored <;> simp
    have hXf : starts0X stored = false := by
      cases hx : starts0X stored
      · rfl
      · obtain ⟨rest, hr⟩ := (starts0X_true_iff stored).mp hx
        rw [decodeWithMarker, if_neg hs, hexDecode, hr, hexDecodeList_cons_0X] at hdec
        exact absurd hdec (by simp)
    rw [← h, hexEncode_not_starts0x, hsf, hXf]
    simp

/-- Closed instance of `reserialize_marker_round_trip` at a `0x`-marked
stored hex and a codec that round-trips to the same byte. -/
theorem reserialize_marker_round_trip_witness :
    starts0x "0xab" = true ↔ (starts0x "0xab" = true ∨ starts0X "0xab" = true) :=
  reserialize_marker_round_trip constDec (fun _ => .ok [171]) "0xab" "0xab" rfl

lemma u64FromLe_eq_sum : ∀ l : List Nat,
    u64FromLe l = ∑ i ∈ Finset.range l.length, l.getD i 0 * 256 ^ i
  | [] => by simp [u64FromLe]
  | b :: bs => by
      rw [u64FromLe, u64FromLe_eq_sum bs, List.length_cons, Finset.sum_range_succ']
      simp only [List.getD_cons_succ, List.getD_cons_zero, pow_zero, mul_one, pow_succ,
        ← mul_assoc]
      rw [← Finset.sum_mul]
      ring

lemma u64FromLe_lt : ∀ l : List Nat, (∀ b ∈ l, b < 256) → u64FromLe l < 256 ^ l.length
  | [], _ => by simp [u64FromLe]
  | b :: bs, h => by
      have hb : b < 256 := h b (List.mem_cons_self b bs)
      have ih := u64FromLe_lt bs (fun x hx => h x (List.mem_cons_of_mem b hx))
      rw [u64FromLe, List.length_cons, pow_succ]
      generalize (256 : Nat) ^ bs.length = p at ih ⊢
      omega

/-- C2: on every byte buffer of length at least 40, the fixed-offset reader
returns the little-endian 64-bit integer over bytes 32..40 (a value below
2^64); on every shorter buffer it returns absent; it is total, so it never
raises. -/
theorem fixed_offset_reader_spec (bytes : List Nat) (hb : ∀ b ∈ bytes, b < 256) :
    readSeqFromBytes bytes =
      (if 40 ≤ bytes.length then some (specLeFieldAt32 bytes) else none) ∧
    ∀ v, readSeqFromBytes bytes = some v → v < 2 ^ 64 := by
  constructor
  · rw [readSeqFromBytes]
    by_cases h40 : bytes.length < 40
    · rw [if_pos h40, if_neg (by omega)]
    · rw [if_neg h40, if_pos (by omega)]
      congr 1
      have hlen : ((bytes.drop 32).take 8).length = 8 := by
        rw [List.length_take, List.length_drop]; omega
      rw [u64FromLe_eq_sum, hlen, specLeFieldAt32]
      refine Finset.sum_congr rfl fun i hi => ?_
      have hi8 : i < 8 := Finset.mem_range.mp hi
      congr 1
      rw [List.getD_eq_getD_get?, List.get?_eq_getElem?, List.getElem?_take_of_lt hi8,
        List.getElem?_drop, List.getD_eq_getD_get?, List.get?_eq_getElem?]
  · intro v hv
    rw [readSeqFromBytes] at hv
    by_cases h40 : bytes.length < 40
    · rw [if_pos h40] at hv; exact absurd hv (by simp)
    · rw [if_neg h40] at hv
      injection hv with hv
      subst hv
      have hlen : ((bytes.drop 32).take 8).length = 8 := by
        rw [List.length_take, List.length_drop]; omega
      have hmem : ∀ b ∈ (bytes.drop 32).take 8, b < 256 := fun b hbm =>
        hb b (List.drop_subset 32 bytes (List.take_subset 8 _ hbm))
      have hlt := u64FromLe_lt _ hmem
      rw [hlen] at hlt
      calc u64FromLe ((bytes.drop 32).take 8) < 256 ^ 8 := hlt
        _ = 2 ^ 64 := by norm_num

/-- Closed instance of `fixed_offset_reader_spec` on the 40-byte buffer of
32 zero bytes followed by the little-endian encoding of 42. -/
theorem fixed_offset_reader_spec_witness :
    readSeqFromBytes (List.replicate 32 0 ++ [42, 0, 0, 0, 0, 0, 0, 0]) = some 42 := by
  have h := (fixed_offset_reader_spec (List.replicate 32 0 ++ [42, 0, 0, 0, 0, 0, 0, 0])
    (by decide)).1
  rw [h]
  decide

lemma hexDigitVal_hexCharLower (c : Char) :
    hexDigitVal (hexCharLower c) = hexDigitVal c := by
  unfold hexCharLower
  split <;> first | decide | rfl

lemma hexDecodeList_map_lower : ∀ l : List Char,
    hexDecodeList (l.map hexCharLower) = hexDecodeList l
  | [] => rfl
  | [_] => rfl
  | hi :: lo :: rest => by
      simp only [List.map_cons, hexDecodeList, hexDigitVal_hexCharLower,
        hexDecodeList_map_lower rest]

/-- C4 counterexample: on the input `0XAB` the implementation fails (only
the lowercase marker is stripped and `X` is not a hex digit), while the
claimed behavior strips the uppercase marker too and decodes `AB`. -/
theorem hex_marker_claim_counterexample :
    decodeWithMarker "0XAB" = none ∧ specDecodeWithMarker "0XAB" = some [171] ∧
    decodeWithMarker "0XAB" ≠ specDecodeWithMarker "0XAB" := by decide

/-- C4 amended: hex decoding strips an optional leading lowercase `0x` marker
only; after the strip it succeeds exactly when the remaining digit count is
even and every remaining character is a hex digit (so an unstripped uppercase
`0X` marker always fails), and uppercase hex digits decode like their
lowercase forms. -/
theorem hex_decode_marker_amended (s : String) :
    ((decodeWithMarker s).isSome = true ↔
      ((if starts0x s then strDrop2 s else s).data.length % 2 = 0 ∧
        ∀ c ∈ (if starts0x s then strDrop2 s else s).data,
          (hexDigitVal c).isSome = true)) ∧
    (starts0X s = true → decodeWithMarker s = none) ∧
    (∀ l : List Char, hexDecode ⟨l.map hexCharLower⟩ = hexDecode ⟨l⟩) := by
  refine ⟨?_, ?_, fun l => ?_⟩
  · rw [decodeWithMarker, hexDecode]
    exact hexDecodeList_isSome _
  · intro hX
    obtain ⟨rest, hr⟩ := (starts0X_true_iff s).mp hX
    have hsx : starts0x s = false := by
      unfold starts0x
      rw [hr]
      rfl
    rw [decodeWithMarker, if_neg (by simp [hsx]), hexDecode, hr, hexDecodeList_cons_0X]
  · rw [hexDecode, hexDecode]
    exact hexDecodeList_map_lower l

/-- Closed instance of `hex_decode_marker_amended`: the uppercase-marked
input `0Xab` fails to decode. -/
theorem hex_decode_marker_amended_witness :
    decodeWithMarker "0Xab" = none :=
  (hex_decode_marker_amended "0Xab").2.1 (by decide)
